import Mathlib

/-!
Verification development for the race-predictor model core
(`src/src/App.tsx`, lines 33–228).

The model core is a set of pure functions:
  * `parseTimeToSeconds` — duration-string parsing (TimeCodec),
  * `decayWeight` — recency weighting,
  * `proxiesFromWorkout` / `aggregateFitness` — fitness-proxy extraction,
  * `riegelPredict` — PR baseline curve,
  * `workoutTimeForDistance` — workout-derived curve,
  * `blendPredictions` — confidence-weighted geometric blend.

Embedding conventions:
  * JavaScript numbers are modelled as real numbers (`ℝ`) for the numeric
    core and as rationals (`ℚ`) for the string-parsing layer (so parsing is
    executable and decidable).  JavaScript `NaN` is modelled as `none` of an
    `Option` type: every place the source produces or tests for `NaN`
    (`parseFloat`/`parseInt` failure, `isFinite` guards, the `masW>0 ? _ : NaN`
    aggregation) is modelled with an explicit `Option`.
  * `parseFloat` can also return `±Infinity` (only for literal
    `"Infinity"`-style inputs); the model maps that case to `none` as well,
    which downstream is indistinguishable from `NaN`: every consumer guards
    with `isFinite`.
  * Calendar dates reach the core only through `new Date(str).getTime()`, a
    host function outside the repository; a date is therefore modelled as the
    already-parsed `Option ℝ` timestamp (`none` = invalid date, i.e. `NaN`
    from `getTime`), and the ambient clock `Date.now()` is an explicit `now`
    argument.
  * JavaScript truthiness tests on numbers (`p.masProxy`, `x || d`) are
    modelled by the corresponding test against `none`/`0`.
-/

namespace RacePredictor

/-! ### JS number-literal parsing (`parseFloat`, `parseInt(_, 10)`) over ℚ -/

/-- Numeric value of a decimal digit character. -/
def digitVal (c : Char) : ℕ := c.toNat - 48

/-- Whitespace skipped by JS `parseFloat`/`parseInt`/`trim` (ASCII subset). -/
def isWS (c : Char) : Bool := c = ' ' || c = '\t' || c = '\n' || c = '\r'

/-- Value of a digit string, most significant first. -/
def digitsVal (ds : List Char) : ℕ := ds.foldl (fun a c => 10 * a + digitVal c) 0

/-- Optional leading sign, as in JS string-to-number grammars. -/
def jsSign (cs : List Char) : ℤ × List Char :=
  match cs with
  | [] => (1, [])
  | c :: rest =>
    if c = '-' then (-1, rest) else if c = '+' then (1, rest) else (1, c :: rest)

/-- Optional fractional part `. digits?` of a JS float literal: returns the
fraction digits and the remaining input. -/
def jsFrac (cs : List Char) : List Char × List Char :=
  match cs with
  | [] => ([], [])
  | c :: rest =>
    if c = '.' then (rest.takeWhile Char.isDigit, rest.dropWhile Char.isDigit)
    else ([], c :: rest)

/-- Optional exponent suffix `e`/`E` `[+-]? digits` of a JS float literal;
an absent or malformed exponent contributes factor `10 ^ 0` (JS backtracks). -/
def jsExponent (cs : List Char) : ℤ :=
  match cs with
  | [] => 0
  | c :: rest =>
    if c = 'e' ∨ c = 'E' then
      let sr := jsSign rest
      let ds := sr.2.takeWhile Char.isDigit
      if ds.isEmpty then 0 else sr.1 * (digitsVal ds : ℤ)
    else 0

/-- JS `parseFloat`: skip leading whitespace, parse the longest prefix of the
form `[+-]? (digits [. digits?] | . digits) ([eE][+-]?digits)?`, ignore any
trailing garbage; `none` models `NaN` (no numeric prefix at all) and also the
non-finite `Infinity` literal (see the header comment). -/
def jsParseFloat (s : String) : Option ℚ :=
  let cs := s.toList.dropWhile isWS
  let sr := jsSign cs
  let intDigits := sr.2.takeWhile Char.isDigit
  let cs2 := sr.2.dropWhile Char.isDigit
  let fr := jsFrac cs2
  if intDigits.isEmpty ∧ fr.1.isEmpty then none
  else
    let mant : ℚ := (digitsVal intDigits : ℚ) + (digitsVal fr.1 : ℚ) / (10 : ℚ) ^ fr.1.length
    some ((sr.1 : ℚ) * mant * (10 : ℚ) ^ jsExponent fr.2)

/-- JS `parseInt(s, 10)`: skip leading whitespace, optional sign, longest
prefix of decimal digits; `none` models `NaN`. -/
def jsParseInt10 (s : String) : Option ℤ :=
  let cs := s.toList.dropWhile isWS
  let sr := jsSign cs
  let ds := sr.2.takeWhile Char.isDigit
  if ds.isEmpty then none else some (sr.1 * (digitsVal ds : ℤ))

/-- JS `String.prototype.trim`: drop whitespace from both ends. -/
def jsTrim (cs : List Char) : List Char :=
  ((cs.dropWhile isWS).reverse.dropWhile isWS).reverse

/-- JS `String.prototype.split(":")` on a character list (the separator is a
single character, so JS and this list model agree segment by segment). -/
def splitOnColon (cs : List Char) : List (List Char) :=
  cs.foldr (fun c acc =>
    match acc with
    | seg :: rest => if c = ':' then [] :: seg :: rest else (c :: seg) :: rest
    | [] => [[c]]) [[]]

/-- String wrapper used for the per-segment sub-parses below. -/
def ofChars (cs : List Char) : String := String.mk cs

/-- The source's `parseTimeToSeconds` (App.tsx lines 37–51): empty input is
`NaN`; otherwise trim, split on `":"`; one segment parses as a float, two
segments as `minutes:seconds`, three as `hours:minutes:seconds` — in the two-
and three-segment forms every failed sub-parse is coerced to `0` by `|| 0` —
and four or more segments are `NaN`.  `none` models `NaN`; the function is
total (it never throws). -/
def parseTimeToSeconds (s : String) : Option ℚ :=
  if s = "" then none
  else
    match splitOnColon (jsTrim s.toList) with
    | [a] => jsParseFloat (ofChars a)
    | [m, sec] =>
        some ((((jsParseInt10 (ofChars m)).getD 0 : ℤ) : ℚ) * 60
          + (jsParseFloat (ofChars sec)).getD 0)
    | [h, m, sec] =>
        some ((((jsParseInt10 (ofChars h)).getD 0 : ℤ) : ℚ) * 3600
          + (((jsParseInt10 (ofChars m)).getD 0 : ℤ) : ℚ) * 60
          + (jsParseFloat (ofChars sec)).getD 0)
    | _ => none

/-! ### Numeric model core over ℝ -/

noncomputable section

/-- Milliseconds per day (App.tsx line 33). -/
def DAY : ℝ := 24 * 3600 * 1000

/-- The source's `clamp` (App.tsx line 35): `Math.min(b, Math.max(a, x))`. -/
def clamp (x a b : ℝ) : ℝ := min b (max a x)

/-- Riegel extrapolation (App.tsx line 117): `t1 * (d2/d1)^b` with real `^`. -/
def riegelPredict (t1 d1 d2 b : ℝ) : ℝ := t1 * (d2 / d1) ^ b

/-- The source's `decayWeight` (App.tsx lines 119–125).  `now` stands for
`Date.now()`, `date` for the already-parsed `new Date(dateStr).getTime()`
(`none` = `NaN`, the unparseable-date case). -/
def decayWeight (now : ℝ) (date : Option ℝ) (halfLifeDays : ℝ) : ℝ :=
  match date with
  | none => 0
  | some t => clamp ((0.5 : ℝ) ^ ((now - t) / (halfLifeDays * DAY))) 0 1

/-- A workout record as consumed by the model core (App.tsx line 129):
`{ reps, repDistanceM, repTimeStr, restSeconds, date }`.  The `id` field is
never read by the core and is omitted; `date` is the parsed timestamp. -/
structure Workout where
  reps : ℝ
  repDistanceM : ℝ
  repTimeStr : String
  restSeconds : ℝ
  date : Option ℝ

/-- Per-workout proxy triple (App.tsx line 154); `none` models `null`. -/
structure Proxies where
  masProxy : Option ℝ
  tProxy : Option ℝ
  asrProxy : Option ℝ

/-- The source's `proxiesFromWorkout` (App.tsx lines 131–155).  The outer
`none` models the `null` early return for an unparseable (`!isFinite`) or
non-positive rep time.  The `|| 0` on `restSeconds` guards `undefined`/`NaN`,
which the `ℝ`-valued field cannot carry, so it is the identity here. -/
def proxiesFromWorkout (w : Workout) : Option Proxies :=
  match parseTimeToSeconds w.repTimeStr with
  | none => none
  | some repSecQ =>
    let repSec : ℝ := (repSecQ : ℝ)
    if repSec ≤ 0 then none
    else
      let vRep := w.repDistanceM / repSec
      let work := repSec
      let rest := w.restSeconds
      let wr := if 0 < work then rest / work else 0
      let recAtten := 1 / (1 + 0.6 / (wr + 0.05))
      let isShort := w.repDistanceM ≤ 600
      let isLong := 800 ≤ w.repDistanceM
      let masProxy := if isShort then some (vRep * (0.86 + 0.12 * recAtten)) else none
      let tProxy :=
        if isLong then some (vRep * (0.74 + 0.20 * (1 - Real.tanh wr)))
        else none
      let asrProxy :=
        if 300 ≤ w.repDistanceM ∧ w.repDistanceM ≤ 500 then some vRep else none
      some ⟨masProxy, tProxy, asrProxy⟩

/-- Aggregated fitness snapshot (App.tsx line 170); `none` models `NaN`
("undefined" proxy: no contributing workouts). -/
structure Fitness where
  mas : Option ℝ
  t : Option ℝ
  asr : Option ℝ

/-- Running sums of the aggregation loop (App.tsx line 158). -/
structure AggAcc where
  masSum : ℝ
  masW : ℝ
  tSum : ℝ
  tW : ℝ
  asrSum : ℝ
  asrW : ℝ

/-- One conditional accumulation `if (p.x) { sum += p.x*wt; w += wt }`:
JS truthiness on `p.x` is `some v` with `v ≠ 0` (a `NaN` proxy value cannot
arise: every produced proxy is a finite real). -/
def addIf (sum wsum : ℝ) (p : Option ℝ) (wt : ℝ) : ℝ × ℝ :=
  match p with
  | some v => if v = 0 then (sum, wsum) else (sum + v * wt, wsum + wt)
  | none => (sum, wsum)

/-- One iteration of the `aggregateFitness` loop body (App.tsx lines 159–166). -/
def aggStep (now : ℝ) (acc : AggAcc) (w : Workout) : AggAcc :=
  match proxiesFromWorkout w with
  | none => acc
  | some p =>
    let wt := decayWeight now w.date 21
    let m := addIf acc.masSum acc.masW p.masProxy wt
    let tt := addIf acc.tSum acc.tW p.tProxy wt
    let a := addIf acc.asrSum acc.asrW p.asrProxy wt
    ⟨m.1, m.2, tt.1, tt.2, a.1, a.2⟩

/-- The source's `aggregateFitness` (App.tsx lines 157–171): recency-weighted
averages per proxy type, `none` (`NaN`) when the weight sum is not positive. -/
def aggregateFitness (now : ℝ) (workouts : List Workout) : Fitness :=
  let acc := workouts.foldl (aggStep now) ⟨0, 0, 0, 0, 0, 0⟩
  ⟨if 0 < acc.masW then some (acc.masSum / acc.masW) else none,
   if 0 < acc.tW then some (acc.tSum / acc.tW) else none,
   if 0 < acc.asrW then some (acc.asrSum / acc.asrW) else none⟩

/-- `RIEGEL_BY_TYPE` (App.tsx lines 84–94); `none` models an absent key.  The
source reads it as `RIEGEL_BY_TYPE[typeKey] || 1.08`; all stored values are
nonzero, so `||` is exactly the default-on-missing-key `getD`. -/
def riegelByType (k : String) : Option ℝ :=
  if k = "400/800" then some 1.12
  else if k = "800" then some 1.10
  else if k = "800/1500/miler" then some 1.085
  else if k = "1500/miler" then some 1.08
  else if k = "1500/5000" then some 1.07
  else if k = "5000" then some 1.065
  else if k = "5000/10000" then some 1.06
  else if k = "10000/marathon" then some 1.055
  else if k = "marathon" then some 1.05
  else none

/-- `TYPE_WEIGHTS` (App.tsx lines 97–107): `(shortRepWeight, longRepWeight)`
per athlete type; arrays are always truthy, so `|| [0.5, 0.5]` is `getD`. -/
def typeWeights (k : String) : Option (ℝ × ℝ) :=
  if k = "400/800" then some (0.70, 0.30)
  else if k = "800" then some (0.65, 0.35)
  else if k = "800/1500/miler" then some (0.58, 0.42)
  else if k = "1500/miler" then some (0.52, 0.48)
  else if k = "1500/5000" then some (0.45, 0.55)
  else if k = "5000" then some (0.38, 0.62)
  else if k = "5000/10000" then some (0.32, 0.68)
  else if k = "10000/marathon" then some (0.25, 0.75)
  else if k = "marathon" then some (0.18, 0.82)
  else none

/-- The source's `workoutTimeForDistance` (App.tsx lines 173–209).  The local
`pure` of the source is named `pureASR` here (`pure` is reserved in Lean).
`isFinite(x) ? x : default` on the `Option ℝ` fitness fields is `getD`. -/
def workoutTimeForDistance (meters : ℝ) (fit : Fitness) (typeKey : String) : ℝ :=
  let wPair := (typeWeights typeKey).getD (0.5, 0.5)
  let wShort := wPair.1
  let wLong := wPair.2
  let masUse := fit.mas.getD 5.5
  let tUse := fit.t.getD 4.2
  let asrUse := fit.asr.getD masUse
  let t1500 := 1500 / (0.92 * masUse)
  let t10k := 10000 / (0.98 * tUse)
  let bW := Real.log (t10k / t1500) / Real.log (10000 / 1500)
  let bAdj := clamp (bW * (0.65 + 0.35 * wLong)) 1.03 1.16
  let a := t1500 / (1500 : ℝ) ^ bAdj
  let tPred := a * meters ^ bAdj
  if meters ≤ 800 then
    let pureASR := meters / (0.90 * asrUse)
    let bias := 0.35 + 0.45 * wShort
    Real.exp (bias * Real.log pureASR + (1 - bias) * Real.log tPred)
  else tPred

/-- Recency-weight sum `workouts.reduce((s,w)=>s+decayWeight(w.date),0)`
(App.tsx line 219). -/
def recentWeightSum (now : ℝ) (workouts : List Workout) : ℝ :=
  workouts.foldl (fun s w => s + decayWeight now w.date 21) 0

/-- Confidence (App.tsx line 220):
`clamp((recentWt / Math.max(1,n)) * 0.9, 0, 0.9)`. -/
def confidence (now : ℝ) (workouts : List Workout) : ℝ :=
  clamp ((recentWeightSum now workouts / max 1 (workouts.length : ℝ)) * 0.9) 0 0.9

/-- Blend weight (App.tsx line 221): `clamp(0.25 + 0.6*conf, 0.25, 0.85)`. -/
def dataWeight (now : ℝ) (workouts : List Workout) : ℝ :=
  clamp (0.25 + 0.6 * confidence now workouts) 0.25 0.85

/-- The guarded logarithm `ln = (x) => Math.log(Math.max(1e-6, x))`
(App.tsx line 224). -/
def lnClamped (x : ℝ) : ℝ := Real.log (max 1e-6 x)

/-- Result record of `blendPredictions` (App.tsx line 227). -/
structure BlendResult where
  base : ℝ
  wkt : ℝ
  tBlend : ℝ
  fitness : Fitness
  dataWt : ℝ

/-- The source's `blendPredictions` (App.tsx lines 211–228). -/
def blendPredictions (now prTime prDist meters : ℝ) (typeKey : String)
    (workouts : List Workout) : BlendResult :=
  let b := (riegelByType typeKey).getD 1.08
  let base := riegelPredict prTime prDist meters b
  let fit := aggregateFitness now workouts
  let wkt := workoutTimeForDistance meters fit typeKey
  let dataWt := dataWeight now workouts
  let tBlend := Real.exp (dataWt * lnClamped wkt + (1 - dataWt) * lnClamped base)
  ⟨base, wkt, tBlend, fit, dataWt⟩

/-- Lists of workouts that agree except possibly in the informational `reps`
field (pointwise equality of every other field). -/
def SameExceptReps (l1 l2 : List Workout) : Prop :=
  List.Forall₂ (fun a b => a.repDistanceM = b.repDistanceM ∧ a.repTimeStr = b.repTimeStr
    ∧ a.restSeconds = b.restSeconds ∧ a.date = b.date) l1 l2

/-- Invariant of one accumulation pair of the aggregation loop: both running
sums are nonnegative and a positive weight sum forces a positive value sum. -/
def GoodPair (sum wsum : ℝ) : Prop := 0 ≤ sum ∧ 0 ≤ wsum ∧ (0 < wsum → 0 < sum)

/-- Invariant of the whole accumulator of the aggregation loop. -/
def GoodAcc (acc : AggAcc) : Prop :=
  GoodPair acc.masSum acc.masW ∧ GoodPair acc.tSum acc.tW ∧ GoodPair acc.asrSum acc.asrW

end

/-! ### Helper lemmas -/

theorem clamp_mem (x a b : ℝ) (hab : a ≤ b) : a ≤ clamp x a b ∧ clamp x a b ≤ b :=
  ⟨le_min hab (le_max_left a x), min_le_left b _⟩

theorem clamp_eq_self (x a b : ℝ) (ha : a ≤ x) (hb : x ≤ b) : clamp x a b = x := by
  rw [clamp, max_eq_right ha, min_eq_right hb]

theorem clamp_eq_of_le (x a b : ℝ) (ha : a ≤ b) (hb : b ≤ x) : clamp x a b = b := by
  rw [clamp, max_eq_right (ha.trans hb), min_eq_left hb]

theorem decayWeight_nonneg (now : ℝ) (date : Option ℝ) (h : ℝ) :
    0 ≤ decayWeight now date h := by
  cases date with
  | none => exact le_refl 0
  | some t => exact (clamp_mem _ 0 1 zero_le_one).1

theorem decayWeight_le_one (now : ℝ) (date : Option ℝ) (h : ℝ) :
    decayWeight now date h ≤ 1 := by
  cases date with
  | none => exact zero_le_one
  | some t => exact (clamp_mem _ 0 1 zero_le_one).2

theorem decayWeight_today (now : ℝ) : decayWeight now (some now) 21 = 1 := by
  have : now - now = 0 := sub_self now
  simp [decayWeight, this, Real.rpow_zero, clamp]

theorem foldl_add_eq_sum (g : Workout → ℝ) (l : List Workout) (a : ℝ) :
    l.foldl (fun s w => s + g w) a = a + (l.map g).sum := by
  induction l generalizing a with
  | nil => simp
  | cons w ws ih => simp only [List.foldl_cons, ih, List.map_cons, List.sum_cons]; ring

theorem recentWeightSum_eq (now : ℝ) (l : List Workout) :
    recentWeightSum now l = (l.map (fun w => decayWeight now w.date 21)).sum := by
  rw [recentWeightSum, foldl_add_eq_sum, zero_add]

theorem recentWeightSum_nonneg (now : ℝ) (l : List Workout) :
    0 ≤ recentWeightSum now l := by
  rw [recentWeightSum_eq]
  exact List.sum_nonneg (by
    intro x hx
    obtain ⟨w, _, rfl⟩ := List.mem_map.mp hx
    exact decayWeight_nonneg now w.date 21)

theorem recentWeightSum_le_length (now : ℝ) (l : List Workout) :
    recentWeightSum now l ≤ (l.length : ℝ) := by
  rw [recentWeightSum_eq]
  have h := List.sum_le_card_nsmul (l.map (fun w => decayWeight now w.date 21)) 1 (by
    intro x hx
    obtain ⟨w, _, rfl⟩ := List.mem_map.mp hx
    exact decayWeight_le_one now w.date 21)
  simpa using h

theorem recentWeightSum_append_one (now : ℝ) (l : List Workout) (w : Workout) :
    recentWeightSum now (l ++ [w]) = recentWeightSum now l + decayWeight now w.date 21 := by
  rw [recentWeightSum_eq, recentWeightSum_eq]
  simp

theorem avg_weight_mem (now : ℝ) (l : List Workout) :
    0 ≤ recentWeightSum now l / max 1 (l.length : ℝ)
    ∧ recentWeightSum now l / max 1 (l.length : ℝ) ≤ 1 := by
  have hpos : (0 : ℝ) < max 1 (l.length : ℝ) := lt_of_lt_of_le one_pos (le_max_left _ _)
  constructor
  · exact div_nonneg (recentWeightSum_nonneg now l) hpos.le
  · rw [div_le_one hpos]
    exact (recentWeightSum_le_length now l).trans (le_max_right _ _)

theorem dataWeight_eq (now : ℝ) (l : List Workout) :
    dataWeight now l = 0.25 + 0.54 * (recentWeightSum now l / max 1 (l.length : ℝ)) := by
  obtain ⟨h0, h1⟩ := avg_weight_mem now l
  rw [dataWeight, confidence,
    clamp_eq_self _ 0 0.9 (by nlinarith) (by nlinarith),
    clamp_eq_self _ 0.25 0.85 (by nlinarith) (by nlinarith)]
  ring

theorem dataWeight_mem (now : ℝ) (l : List Workout) :
    0.25 ≤ dataWeight now l ∧ dataWeight now l ≤ 0.85 :=
  clamp_mem _ _ _ (by norm_num)

theorem geom_blend_bracket (x y w : ℝ) (hx : 0 < x) (hy : 0 < y)
    (hw0 : 0 ≤ w) (hw1 : w ≤ 1) :
    min x y ≤ Real.exp (w * Real.log y + (1 - w) * Real.log x)
    ∧ Real.exp (w * Real.log y + (1 - w) * Real.log x) ≤ max x y := by
  have hmin : 0 < min x y := lt_min hx hy
  have hw1' : (0 : ℝ) ≤ 1 - w := by linarith
  constructor
  · have la := Real.log_le_log hmin (min_le_right x y)
    have lb := Real.log_le_log hmin (min_le_left x y)
    have e1 := mul_le_mul_of_nonneg_left la hw0
    have e2 := mul_le_mul_of_nonneg_left lb hw1'
    calc min x y = Real.exp (Real.log (min x y)) := (Real.exp_log hmin).symm
      _ ≤ _ := Real.exp_le_exp.mpr (by nlinarith)
  · have la := Real.log_le_log hy (le_max_right x y)
    have lb := Real.log_le_log hx (le_max_left x y)
    have e1 := mul_le_mul_of_nonneg_left la hw0
    have e2 := mul_le_mul_of_nonneg_left lb hw1'
    calc Real.exp _ ≤ Real.exp (Real.log (max x y)) := Real.exp_le_exp.mpr (by nlinarith)
      _ = max x y := Real.exp_log (lt_max_of_lt_left hx)

theorem avg_step (R n : ℝ) (hR0 : 0 ≤ R) (hRn : R ≤ n) (hn : 0 ≤ n) :
    R / max 1 n ≤ (R + 1) / max 1 (n + 1)
    ∧ (R / max 1 n < 1 → R / max 1 n < (R + 1) / max 1 (n + 1)) := by
  have hmax' : max 1 (n + 1) = n + 1 := max_eq_right (by linarith)
  rcases le_or_lt 1 n with h1 | h1
  · rw [max_eq_right h1, hmax']
    constructor
    · rw [div_le_div_iff (by linarith) (by linarith)]
      nlinarith
    · intro hlt
      rw [div_lt_one (by linarith)] at hlt
      rw [div_lt_div_iff (by linarith) (by linarith)]
      nlinarith
  · rw [max_eq_left h1.le, hmax']
    constructor
    · rw [div_one, le_div_iff (by linarith)]
      nlinarith [mul_le_mul_of_nonneg_right hRn hn]
    · intro hlt
      rw [div_one] at hlt ⊢
      rw [lt_div_iff (by linarith)]
      nlinarith [mul_le_mul_of_nonneg_right hRn hn]

theorem avg_append_today (now : ℝ) (l : List Workout) (w : Workout)
    (hw : decayWeight now w.date 21 = 1) :
    recentWeightSum now l / max 1 (l.length : ℝ)
      ≤ recentWeightSum now (l ++ [w]) / max 1 ((l ++ [w]).length : ℝ)
    ∧ (recentWeightSum now l / max 1 (l.length : ℝ) < 1 →
        recentWeightSum now l / max 1 (l.length : ℝ)
          < recentWeightSum now (l ++ [w]) / max 1 ((l ++ [w]).length : ℝ)) := by
  have hs : recentWeightSum now (l ++ [w]) = recentWeightSum now l + 1 := by
    rw [recentWeightSum_append_one, hw]
  have hl : (((l ++ [w]).length : ℕ) : ℝ) = (l.length : ℝ) + 1 := by
    simp [List.length_append]
  rw [hs, hl]
  exact avg_step _ _ (recentWeightSum_nonneg now l) (recentWeightSum_le_length now l)
    (Nat.cast_nonneg _)

theorem sum_decay_congr (now : ℝ) (l1 l2 : List Workout)
    (h : List.Forall₂ (fun a b => a.date = b.date) l1 l2) :
    recentWeightSum now l1 = recentWeightSum now l2 := by
  rw [recentWeightSum_eq, recentWeightSum_eq]
  induction h with
  | nil => rfl
  | cons hab htl ih => simp only [List.map_cons, List.sum_cons, ih, hab]

theorem dataWeight_congr_dates (now : ℝ) (l1 l2 : List Workout)
    (h : List.Forall₂ (fun a b => a.date = b.date) l1 l2) :
    dataWeight now l1 = dataWeight now l2 := by
  rw [dataWeight_eq, dataWeight_eq, sum_decay_congr now l1 l2 h, h.length_eq]

/-! ### Claim theorems -/

/-- C1: for every event and all valid inputs (computed baseline `base` and
workout-curve time `wkt` both at least `1e-6`, the guard threshold of the
source's clamped logarithm; finiteness is inherent to the `ℝ` model), the
blended prediction of `blendPredictions` satisfies
`min(base, wkt) ≤ blended ≤ max(base, wkt)`. -/
theorem blendPredictions_bracketing (now prTime prDist meters : ℝ) (typeKey : String)
    (workouts : List Workout)
    (hb : 1e-6 ≤ (blendPredictions now prTime prDist meters typeKey workouts).base)
    (hw : 1e-6 ≤ (blendPredictions now prTime prDist meters typeKey workouts).wkt) :
    min (blendPredictions now prTime prDist meters typeKey workouts).base
        (blendPredictions now prTime prDist meters typeKey workouts).wkt
      ≤ (blendPredictions now prTime prDist meters typeKey workouts).tBlend
    ∧ (blendPredictions now prTime prDist meters typeKey workouts).tBlend
      ≤ max (blendPredictions now prTime prDist meters typeKey workouts).base
          (blendPredictions now prTime prDist meters typeKey workouts).wkt := by
  have htb : (blendPredictions now prTime prDist meters typeKey workouts).tBlend
      = Real.exp (dataWeight now workouts
          * lnClamped (blendPredictions now prTime prDist meters typeKey workouts).wkt
        + (1 - dataWeight now workouts)
          * lnClamped (blendPredictions now prTime prDist meters typeKey workouts).base) := rfl
  have hbpos : (0 : ℝ) < (blendPredictions now prTime prDist meters typeKey workouts).base :=
    lt_of_lt_of_le (by norm_num) hb
  have hwpos : (0 : ℝ) < (blendPredictions now prTime prDist meters typeKey workouts).wkt :=
    lt_of_lt_of_le (by norm_num) hw
  have hlb : lnClamped (blendPredictions now prTime prDist meters typeKey workouts).base
      = Real.log (blendPredictions now prTime prDist meters typeKey workouts).base := by
    rw [lnClamped, max_eq_right hb]
  have hlw : lnClamped (blendPredictions now prTime prDist meters typeKey workouts).wkt
      = Real.log (blendPredictions now prTime prDist meters typeKey workouts).wkt := by
    rw [lnClamped, max_eq_right hw]
  obtain ⟨hd0, hd1⟩ := dataWeight_mem now workouts
  have h := geom_blend_bracket
    (blendPredictions now prTime prDist meters typeKey workouts).base
    (blendPredictions now prTime prDist meters typeKey workouts).wkt
    (dataWeight now workouts) hbpos hwpos (by linarith) (by linarith)
  rw [htb, hlb, hlw]
  exact h

theorem blend_base_at_pr_eval : (blendPredictions 0 240 1500 1500 "" []).base = 240 := by
  have h : (blendPredictions 0 240 1500 1500 "" []).base
      = riegelPredict 240 1500 1500 ((riegelByType "").getD 1.08) := rfl
  rw [h, riegelPredict]
  norm_num [Real.one_rpow]

theorem blend_wkt_default_eval : (blendPredictions 0 240 1500 1500 "" []).wkt
    = 1500 / (0.92 * 5.5) := by
  have h0 : (blendPredictions 0 240 1500 1500 "" []).wkt
      = workoutTimeForDistance 1500 (aggregateFitness 0 []) "" := rfl
  have hfit : aggregateFitness 0 [] = ⟨none, none, none⟩ := by
    simp [aggregateFitness]
  rw [h0, hfit]
  simp only [workoutTimeForDistance, typeWeights]
  norm_num
  rw [div_mul_cancel₀]
  exact (Real.rpow_pos_of_pos (by norm_num) _).ne'

theorem blendPredictions_bracketing_witness :
    1e-6 ≤ (blendPredictions 0 240 1500 1500 "" []).base
    ∧ 1e-6 ≤ (blendPredictions 0 240 1500 1500 "" []).wkt
    ∧ (min (blendPredictions 0 240 1500 1500 "" []).base
          (blendPredictions 0 240 1500 1500 "" []).wkt
        ≤ (blendPredictions 0 240 1500 1500 "" []).tBlend
      ∧ (blendPredictions 0 240 1500 1500 "" []).tBlend
        ≤ max (blendPredictions 0 240 1500 1500 "" []).base
            (blendPredictions 0 240 1500 1500 "" []).wkt) := by
  have hb : 1e-6 ≤ (blendPredictions 0 240 1500 1500 "" []).base := by
    rw [blend_base_at_pr_eval]; norm_num
  have hw : 1e-6 ≤ (blendPredictions 0 240 1500 1500 "" []).wkt := by
    rw [blend_wkt_default_eval]; norm_num
  exact ⟨hb, hw, blendPredictions_bracketing 0 240 1500 1500 "" [] hb hw⟩

/-- C8: for all `t > 0`, `d > 0` and any exponent `b`, the Riegel baseline
prediction at the PR distance itself returns the PR time exactly:
`riegelPredict t d d b = t`. -/
theorem riegelPredict_identity (t d b : ℝ) (ht : 0 < t) (hd : 0 < d) :
    riegelPredict t d d b = t := by
  rw [riegelPredict, div_self hd.ne', Real.one_rpow, mul_one]

theorem riegelPredict_identity_witness :
    (0 : ℝ) < 240 ∧ (0 : ℝ) < 1500 ∧ riegelPredict 240 1500 1500 1.08 = 240 :=
  ⟨by norm_num, by norm_num, riegelPredict_identity 240 1500 1.08 (by norm_num) (by norm_num)⟩

/-- C7: for every reference time `now` and every (pre-parsed) date,
`decayWeight` lies in `[0, 1]`; an unparseable date gives exactly `0`; a date
at or after `now` gives exactly `1` (the clamp caps the pre-clamp value). -/
theorem decayWeight_range_and_edges (now : ℝ) (date : Option ℝ) :
    (0 ≤ decayWeight now date 21 ∧ decayWeight now date 21 ≤ 1)
    ∧ (date = none → decayWeight now date 21 = 0)
    ∧ (∀ t, date = some t → now ≤ t → decayWeight now date 21 = 1) := by
  refine ⟨⟨decayWeight_nonneg now date 21, decayWeight_le_one now date 21⟩, ?_, ?_⟩
  · rintro rfl; rfl
  · rintro t rfl hle
    have hDAY : (0 : ℝ) < 21 * DAY := by norm_num [DAY]
    have hexp : (now - t) / (21 * DAY) ≤ 0 :=
      div_nonpos_of_nonpos_of_nonneg (by linarith) hDAY.le
    have hone : (1 : ℝ) ≤ (0.5 : ℝ) ^ ((now - t) / (21 * DAY)) :=
      Real.one_le_rpow_of_pos_of_le_one_of_nonpos (by norm_num) (by norm_num) hexp
    rw [decayWeight]
    exact clamp_eq_of_le _ 0 1 zero_le_one hone

theorem decayWeight_range_and_edges_witness :
    decayWeight 0 none 21 = 0 ∧ decayWeight 0 (some 0) 21 = 1 :=
  ⟨(decayWeight_range_and_edges 0 none).2.1 rfl,
   (decayWeight_range_and_edges 0 (some 0)).2.2 0 rfl le_rfl⟩

/-- C4: with an empty workout list, the confidence is `0` and the blend
weight `dataWt` returned by `blendPredictions` is exactly `0.25`, for every
PR, target distance and athlete-type key. -/
theorem blendPredictions_empty_floor (now prTime prDist meters : ℝ) (typeKey : String) :
    confidence now [] = 0
    ∧ (blendPredictions now prTime prDist meters typeKey []).dataWt = 0.25 := by
  have hconf : confidence now ([] : List Workout) = 0 := by
    norm_num [confidence, recentWeightSum, clamp]
  refine ⟨hconf, ?_⟩
  show dataWeight now [] = 0.25
  rw [dataWeight, hconf]
  norm_num [clamp]

/-- C3: holding the PR and athlete type fixed, appending a workout dated
today (parsed date equal to `now`, so its recency weight is exactly `1` and
the recency-weight sum strictly increases) never decreases `dataWt`, and for
every workout list whatsoever `dataWt` never exceeds `0.85`. -/
theorem dataWeight_monotone_today_and_capped (now prTime prDist meters : ℝ)
    (typeKey : String) (workouts : List Workout) (w : Workout)
    (hw : w.date = some now) :
    (blendPredictions now prTime prDist meters typeKey workouts).dataWt
      ≤ (blendPredictions now prTime prDist meters typeKey (workouts ++ [w])).dataWt
    ∧ ∀ l : List Workout,
        (blendPredictions now prTime prDist meters typeKey l).dataWt ≤ 0.85 := by
  constructor
  · show dataWeight now workouts ≤ dataWeight now (workouts ++ [w])
    have hdw : decayWeight now w.date 21 = 1 := by
      rw [hw]; exact decayWeight_today now
    rw [dataWeight_eq, dataWeight_eq]
    have h := (avg_append_today now workouts w hdw).1
    linarith
  · intro l
    exact (dataWeight_mem now l).2

theorem dataWeight_monotone_today_and_capped_witness :
    (blendPredictions 0 240 1500 1500 "1500/miler" []).dataWt
      ≤ (blendPredictions 0 240 1500 1500 "1500/miler"
          ([] ++ [⟨4, 400, "65", 60, some 0⟩])).dataWt :=
  (dataWeight_monotone_today_and_capped 0 240 1500 1500 "1500/miler" []
    ⟨4, 400, "65", 60, some 0⟩ rfl).1

/-- C10: the `dataWt` computed by `blendPredictions` depends only on the
workout count and dates (lists with pointwise-equal dates give equal
`dataWt`); a workout with an unparseable rep time contributes no fitness
proxy at all, yet appending such a workout dated today never decreases
`dataWt`, and strictly increases it whenever the prior per-workout average
recency weight is below `1` and `dataWt` is below the `0.85` cap. -/
theorem dataWeight_dates_only (now prTime prDist meters : ℝ) (typeKey : String) :
    (∀ l1 l2 : List Workout, List.Forall₂ (fun a b => a.date = b.date) l1 l2 →
      (blendPredictions now prTime prDist meters typeKey l1).dataWt
        = (blendPredictions now prTime prDist meters typeKey l2).dataWt)
    ∧ ∀ (l : List Workout) (w : Workout),
        parseTimeToSeconds w.repTimeStr = none → w.date = some now →
        proxiesFromWorkout w = none
        ∧ (blendPredictions now prTime prDist meters typeKey l).dataWt
            ≤ (blendPredictions now prTime prDist meters typeKey (l ++ [w])).dataWt
        ∧ (recentWeightSum now l / max 1 (l.length : ℝ) < 1 →
            (blendPredictions now prTime prDist meters typeKey l).dataWt < 0.85 →
            (blendPredictions now prTime prDist meters typeKey l).dataWt
              < (blendPredictions now prTime prDist meters typeKey (l ++ [w])).dataWt) := by
  constructor
  · intro l1 l2 h
    show dataWeight now l1 = dataWeight now l2
    exact dataWeight_congr_dates now l1 l2 h
  · intro l w hparse hdate
    have hdw : decayWeight now w.date 21 = 1 := by
      rw [hdate]; exact decayWeight_today now
    refine ⟨by simp [proxiesFromWorkout, hparse], ?_, ?_⟩
    · show dataWeight now l ≤ dataWeight now (l ++ [w])
      rw [dataWeight_eq, dataWeight_eq]
      have h := (avg_append_today now l w hdw).1
      linarith
    · intro havg _
      show dataWeight now l < dataWeight now (l ++ [w])
      rw [dataWeight_eq, dataWeight_eq]
      have h := (avg_append_today now l w hdw).2 havg
      linarith

theorem dataWeight_dates_only_witness :
    proxiesFromWorkout ⟨0, 400, "zz", 60, some 0⟩ = none
    ∧ (blendPredictions 0 240 1500 1500 "1500/miler" []).dataWt
        ≤ (blendPredictions 0 240 1500 1500 "1500/miler"
            ([] ++ [⟨0, 400, "zz", 60, some 0⟩])).dataWt
    ∧ (blendPredictions 0 240 1500 1500 "1500/miler" []).dataWt
        < (blendPredictions 0 240 1500 1500 "1500/miler"
            ([] ++ [⟨0, 400, "zz", 60, some 0⟩])).dataWt := by
  have hp : parseTimeToSeconds "zz" = none := by
    simp [parseTimeToSeconds, splitOnColon, jsTrim, ofChars, jsParseFloat, jsParseInt10,
      jsSign, jsFrac, jsExponent, digitsVal, digitVal, isWS, List.dropWhile, List.takeWhile]
  have h := (dataWeight_dates_only 0 240 1500 1500 "1500/miler").2 []
    ⟨0, 400, "zz", 60, some 0⟩ hp rfl
  refine ⟨h.1, h.2.1, h.2.2 (by norm_num [recentWeightSum]) ?_⟩
  show dataWeight 0 [] < 0.85
  norm_num [dataWeight, confidence, recentWeightSum, clamp]

/-- C2 counterexample: the input `"x:30"` contains a non-numeric segment in
two-segment form, yet `parseTimeToSeconds` coerces the failed sub-parse to
`0` via `|| 0` and returns the numeric duration `30` rather than `NaN`
(`"x:y"` even parses to `0`), refuting the claim that any input with a
non-numeric segment in one-, two-, or three-segment form yields `NaN`. -/
theorem parseTimeToSeconds_coercion_counterexample :
    jsParseInt10 "x" = none ∧ jsParseFloat "x" = none
    ∧ parseTimeToSeconds "x:30" = some 30
    ∧ parseTimeToSeconds "x:y" = some 0 := by
  refine ⟨?_, ?_, ?_, ?_⟩ <;>
    simp [parseTimeToSeconds, splitOnColon, jsTrim, ofChars, jsParseFloat, jsParseInt10,
      jsSign, jsFrac, jsExponent, digitsVal, digitVal, isWS, List.dropWhile, List.takeWhile]

/-- C2 (amended): `parseTimeToSeconds` is total (it never throws, being a
Lean function) and returns the explicit not-a-number value `none` exactly for
the genuinely non-numeric shapes: empty input; one-segment input whose
segment has no numeric prefix (`parseFloat` gives `NaN`); and four or more
segments.  Two- and three-segment input never yields `NaN`: each non-numeric
segment is coerced to `0` by `|| 0`. -/
theorem parseTimeToSeconds_nan_cases (s : String) :
    (s = "" → parseTimeToSeconds s = none)
    ∧ (∀ a, splitOnColon (jsTrim s.toList) = [a] → jsParseFloat (ofChars a) = none →
        parseTimeToSeconds s = none)
    ∧ (4 ≤ (splitOnColon (jsTrim s.toList)).length → parseTimeToSeconds s = none)
    ∧ (∀ x y l, splitOnColon (jsTrim s.toList) = x :: y :: l → l.length ≤ 1 →
        (parseTimeToSeconds s).isSome = true) := by
  by_cases hs : s = ""
  · subst hs
    have hsplit : splitOnColon (jsTrim ("" : String).toList) = [[]] := rfl
    refine ⟨fun _ => rfl, ?_, ?_, ?_⟩
    · intro a _ _; rfl
    · intro h
      rw [hsplit] at h
      norm_num at h
    · intro x y l h
      rw [hsplit] at h
      exact absurd (congrArg List.length h)
        (by simp only [List.length_cons, List.length_nil]; omega)
  · rcases hsep : splitOnColon (jsTrim s.toList) with _ | ⟨a, _ | ⟨b, _ | ⟨c, rest⟩⟩⟩
    · refine ⟨fun h => absurd h hs, ?_, ?_, ?_⟩
      · intro a h
        exact absurd h (by simp)
      · intro h
        simp at h
      · intro x y l h
        exact absurd h (by simp)
    · refine ⟨fun h => absurd h hs, ?_, ?_, ?_⟩
      · intro a' ha' hfloat
        obtain rfl : a = a' := by injection ha'
        rw [parseTimeToSeconds, if_neg hs, hsep]
        exact hfloat
      · intro h
        simp at h
      · intro x y l h
        exact absurd (congrArg List.length h)
          (by simp only [List.length_cons, List.length_nil]; omega)
    · refine ⟨fun h => absurd h hs, ?_, ?_, ?_⟩
      · intro a' h
        exact absurd (congrArg List.length h)
          (by simp only [List.length_cons, List.length_nil]; omega)
      · intro h
        simp at h
      · intro x y l _ _
        rw [parseTimeToSeconds, if_neg hs, hsep]
        rfl
    · rcases rest with _ | ⟨d, rest2⟩
      · refine ⟨fun h => absurd h hs, ?_, ?_, ?_⟩
        · intro a' h
          exact absurd (congrArg List.length h)
            (by simp only [List.length_cons, List.length_nil]; omega)
        · intro h
          simp at h
        · intro x y l _ _
          rw [parseTimeToSeconds, if_neg hs, hsep]
          rfl
      · refine ⟨fun h => absurd h hs, ?_, ?_, ?_⟩
        · intro a' h
          exact absurd (congrArg List.length h)
            (by simp only [List.length_cons, List.length_nil]; omega)
        · intro _
          rw [parseTimeToSeconds, if_neg hs, hsep]
        · intro x y l h hlen
          injection h with h1 h2
          injection h2 with h2 h3
          rw [← h3] at hlen
          simp only [List.length_cons] at hlen
          omega

theorem parseTimeToSeconds_nan_cases_witness :
    parseTimeToSeconds "abc" = none ∧ parseTimeToSeconds "1:2:3:4" = none := by
  constructor
  · refine (parseTimeToSeconds_nan_cases "abc").2.1 ("abc".toList) ?_ ?_
    · simp [splitOnColon, jsTrim, isWS, List.dropWhile]
    · simp [ofChars, jsParseFloat, jsSign, jsFrac, jsExponent, digitsVal, digitVal, isWS,
        List.dropWhile, List.takeWhile]
  · refine (parseTimeToSeconds_nan_cases "1:2:3:4").2.2.1 ?_
    simp [splitOnColon, jsTrim, isWS, List.dropWhile]

theorem isSome_ite {α : Type} (c : Prop) [Decidable c] (v : α) :
    (if c then some v else none).isSome = true ↔ c := by
  split_ifs with h <;> simp [h]

/-- C6: for a workout with a parseable strictly positive rep time and positive
rep distance `d`, `proxiesFromWorkout` yields a MAS proxy exactly when
`d ≤ 600`, a Threshold proxy exactly when `800 ≤ d`, and an ASR proxy exactly
when `300 ≤ d ≤ 500` — so a 400 m rep feeds MAS and ASR but not Threshold,
and a 1000 m rep feeds Threshold only. -/
theorem proxiesFromWorkout_bands (w : Workout) (r : ℚ)
    (hp : parseTimeToSeconds w.repTimeStr = some r) (hr : 0 < r)
    (hd : 0 < w.repDistanceM) :
    ∃ p, proxiesFromWorkout w = some p
      ∧ (p.masProxy.isSome = true ↔ w.repDistanceM ≤ 600)
      ∧ (p.tProxy.isSome = true ↔ 800 ≤ w.repDistanceM)
      ∧ (p.asrProxy.isSome = true ↔ 300 ≤ w.repDistanceM ∧ w.repDistanceM ≤ 500) := by
  have hrr : ¬ ((r : ℝ) ≤ 0) := not_le.mpr (by exact_mod_cast hr)
  simp only [proxiesFromWorkout, hp]
  rw [if_neg hrr]
  exact ⟨_, rfl, isSome_ite _ _, isSome_ite _ _, isSome_ite _ _⟩

theorem proxiesFromWorkout_bands_witness :
    ∃ p, proxiesFromWorkout ⟨6, 400, "65", 60, some 0⟩ = some p
      ∧ (p.masProxy.isSome = true ↔ (400 : ℝ) ≤ 600)
      ∧ (p.tProxy.isSome = true ↔ (800 : ℝ) ≤ 400)
      ∧ (p.asrProxy.isSome = true ↔ (300 : ℝ) ≤ 400 ∧ (400 : ℝ) ≤ 500) := by
  have hp : parseTimeToSeconds "65" = some 65 := by
    simp [parseTimeToSeconds, splitOnColon, jsTrim, ofChars, jsParseFloat, jsParseInt10,
      jsSign, jsFrac, jsExponent, digitsVal, digitVal, isWS, List.dropWhile, List.takeWhile]
  exact proxiesFromWorkout_bands ⟨6, 400, "65", 60, some 0⟩ 65 hp (by norm_num)
    (by show (0 : ℝ) < 400; norm_num)

theorem proxies_congr (a b : Workout)
    (h1 : a.repDistanceM = b.repDistanceM) (h2 : a.repTimeStr = b.repTimeStr)
    (h3 : a.restSeconds = b.restSeconds) :
    proxiesFromWorkout a = proxiesFromWorkout b := by
  cases a
  cases b
  simp only at h1 h2 h3
  subst h1
  subst h2
  subst h3
  rfl

theorem aggStep_congr (now : ℝ) (acc : AggAcc) (a b : Workout)
    (h1 : a.repDistanceM = b.repDistanceM) (h2 : a.repTimeStr = b.repTimeStr)
    (h3 : a.restSeconds = b.restSeconds) (h4 : a.date = b.date) :
    aggStep now acc a = aggStep now acc b := by
  simp only [aggStep]
  rw [proxies_congr a b h1 h2 h3, h4]

theorem aggregate_congr (now : ℝ) (l1 l2 : List Workout) (h : SameExceptReps l1 l2) :
    aggregateFitness now l1 = aggregateFitness now l2 := by
  have hfold : ∀ acc, l1.foldl (aggStep now) acc = l2.foldl (aggStep now) acc := by
    induction h with
    | nil => intro acc; rfl
    | cons hab htl ih =>
      intro acc
      simp only [List.foldl_cons]
      rw [aggStep_congr now acc _ _ hab.1 hab.2.1 hab.2.2.1 hab.2.2.2]
      exact ih _
  rw [aggregateFitness, aggregateFitness, hfold]

/-- C9: two workout lists identical except in the informational `reps` fields
produce identical `blendPredictions` output (base, workout, blended, fitness
and dataWeight): the rep count never enters the math. -/
theorem blendPredictions_reps_noninterference (now prTime prDist meters : ℝ)
    (typeKey : String) (l1 l2 : List Workout) (h : SameExceptReps l1 l2) :
    blendPredictions now prTime prDist meters typeKey l1
      = blendPredictions now prTime prDist meters typeKey l2 := by
  have hdates : List.Forall₂ (fun a b => a.date = b.date) l1 l2 :=
    List.Forall₂.imp (fun a b hab => hab.2.2.2) h
  have hfit := aggregate_congr now l1 l2 h
  have hdw := dataWeight_congr_dates now l1 l2 hdates
  rw [blendPredictions, blendPredictions, hfit, hdw]

theorem blendPredictions_reps_noninterference_witness :
    blendPredictions 0 240 1500 1500 "1500/miler" [⟨6, 400, "65", 60, some 0⟩]
      = blendPredictions 0 240 1500 1500 "1500/miler" [⟨12, 400, "65", 60, some 0⟩] :=
  blendPredictions_reps_noninterference 0 240 1500 1500 "1500/miler" _ _
    (List.Forall₂.cons ⟨rfl, rfl, rfl, rfl⟩ List.Forall₂.nil)

theorem ite_some_eq_some {α : Type} (c : Prop) [Decidable c] (X v : α)
    (h : (if c then some X else none) = some v) : v = X := by
  split_ifs at h with hc
  injection h with h
  exact h.symm

theorem tanh_lt_one_real (x : ℝ) : Real.tanh x < 1 := by
  rw [Real.tanh_eq_sinh_div_cosh]
  exact (div_lt_one (Real.cosh_pos x)).mpr (Real.sinh_lt_cosh x)

theorem mas_val_nonneg (v wr : ℝ) (hv : 0 ≤ v) (hwr : 0 ≤ wr) :
    0 ≤ v * (0.86 + 0.12 * (1 / (1 + 0.6 / (wr + 0.05)))) := by
  have h05 : (0 : ℝ) < wr + 0.05 := by linarith
  have h06 : (0 : ℝ) < 0.6 / (wr + 0.05) := div_pos (by norm_num) h05
  have hrec : (0 : ℝ) < 1 / (1 + 0.6 / (wr + 0.05)) := div_pos one_pos (by linarith)
  exact mul_nonneg hv (by linarith)

theorem t_val_nonneg (v wr : ℝ) (hv : 0 ≤ v) :
    0 ≤ v * (0.74 + 0.20 * (1 - Real.tanh wr)) := by
  have htanh := tanh_lt_one_real wr
  exact mul_nonneg hv (by linarith)

theorem proxiesFromWorkout_nonneg (w : Workout) (hd : 0 ≤ w.repDistanceM)
    (hrest : 0 ≤ w.restSeconds) (p : Proxies) (hp : proxiesFromWorkout w = some p) :
    (∀ v, p.masProxy = some v → 0 ≤ v) ∧ (∀ v, p.tProxy = some v → 0 ≤ v)
    ∧ (∀ v, p.asrProxy = some v → 0 ≤ v) := by
  rcases hq : parseTimeToSeconds w.repTimeStr with _ | q
  · rw [proxiesFromWorkout, hq] at hp
    cases hp
  · simp only [proxiesFromWorkout, hq] at hp
    by_cases hle : ((q : ℝ)) ≤ 0
    · rw [if_pos hle] at hp
      cases hp
    · have hpos : (0 : ℝ) < (q : ℝ) := not_le.mp hle
      rw [if_neg hle, if_pos hpos] at hp
      injection hp with hp
      subst hp
      have hv : 0 ≤ w.repDistanceM / (q : ℝ) := div_nonneg hd hpos.le
      have hwr : (0 : ℝ) ≤ w.restSeconds / (q : ℝ) := div_nonneg hrest hpos.le
      refine ⟨?_, ?_, ?_⟩ <;> intro v hv' <;> simp only at hv'
      · obtain rfl := ite_some_eq_some _ _ _ hv'
        exact mas_val_nonneg _ _ hv hwr
      · obtain rfl := ite_some_eq_some _ _ _ hv'
        exact t_val_nonneg _ _ hv
      · obtain rfl := ite_some_eq_some _ _ _ hv'
        exact hv

theorem addIf_good (sum wsum wt : ℝ) (p : Option ℝ)
    (hg : GoodPair sum wsum) (hwt : 0 ≤ wt) (hp : ∀ v, p = some v → 0 ≤ v) :
    GoodPair (addIf sum wsum p wt).1 (addIf sum wsum p wt).2 := by
  obtain ⟨h1, h2, h3⟩ := hg
  cases p with
  | none => exact ⟨h1, h2, h3⟩
  | some v =>
    by_cases hv : v = 0
    · simp only [addIf, if_pos hv]
      exact ⟨h1, h2, h3⟩
    · have hv0 : 0 < v := lt_of_le_of_ne (hp v rfl) (Ne.symm hv)
      simp only [addIf, if_neg hv]
      refine ⟨add_nonneg h1 (mul_nonneg hv0.le hwt), add_nonneg h2 hwt, ?_⟩
      intro hpos
      rcases hwt.lt_or_eq with hlt | heq
      · have hvw := mul_pos hv0 hlt
        linarith
      · rw [← heq, add_zero] at hpos
        rw [← heq, mul_zero, add_zero]
        exact h3 hpos

theorem aggStep_good (now : ℝ) (acc : AggAcc) (w : Workout)
    (hacc : GoodAcc acc) (hd : 0 ≤ w.repDistanceM) (hrest : 0 ≤ w.restSeconds) :
    GoodAcc (aggStep now acc w) := by
  rw [aggStep]
  rcases hq : proxiesFromWorkout w with _ | p
  · exact hacc
  · obtain ⟨hm, ht, ha⟩ := proxiesFromWorkout_nonneg w hd hrest p hq
    have hwt : 0 ≤ decayWeight now w.date 21 := decayWeight_nonneg _ _ _
    obtain ⟨g1, g2, g3⟩ := hacc
    exact ⟨addIf_good _ _ _ _ g1 hwt hm, addIf_good _ _ _ _ g2 hwt ht,
      addIf_good _ _ _ _ g3 hwt ha⟩

theorem foldl_aggStep_good (now : ℝ) (l : List Workout) (acc : AggAcc)
    (hacc : GoodAcc acc) (h : ∀ w ∈ l, 0 ≤ w.repDistanceM ∧ 0 ≤ w.restSeconds) :
    GoodAcc (l.foldl (aggStep now) acc) := by
  induction l generalizing acc with
  | nil => exact hacc
  | cons w ws ih =>
    rw [List.foldl_cons]
    exact ih _ (aggStep_good now acc w hacc (h w (List.mem_cons_self w ws)).1
      (h w (List.mem_cons_self w ws)).2) (fun x hx => h x (List.mem_cons_of_mem w hx))

theorem aggregateFitness_pos (now : ℝ) (l : List Workout)
    (h : ∀ w ∈ l, 0 ≤ w.repDistanceM ∧ 0 ≤ w.restSeconds) :
    (∀ v, (aggregateFitness now l).mas = some v → 0 < v)
    ∧ (∀ v, (aggregateFitness now l).t = some v → 0 < v)
    ∧ (∀ v, (aggregateFitness now l).asr = some v → 0 < v) := by
  have hginit : GoodAcc (⟨0, 0, 0, 0, 0, 0⟩ : AggAcc) :=
    ⟨⟨le_refl 0, le_refl 0, id⟩, ⟨le_refl 0, le_refl 0, id⟩, ⟨le_refl 0, le_refl 0, id⟩⟩
  have hg := foldl_aggStep_good now l _ hginit h
  obtain ⟨⟨m1, m2, m3⟩, ⟨t1, t2, t3⟩, ⟨a1, a2, a3⟩⟩ := hg
  simp only [aggregateFitness]
  refine ⟨?_, ?_, ?_⟩ <;> intro v hv
  · split_ifs at hv with hc
    injection hv with hv
    subst hv
    exact div_pos (m3 hc) hc
  · split_ifs at hv with hc
    injection hv with hv
    subst hv
    exact div_pos (t3 hc) hc
  · split_ifs at hv with hc
    injection hv with hv
    subst hv
    exact div_pos (a3 hc) hc

theorem workoutTimeForDistance_pos (meters : ℝ) (fit : Fitness) (k : String)
    (hm : 0 < meters) (hmas : ∀ v, fit.mas = some v → 0 < v) :
    0 < workoutTimeForDistance meters fit k := by
  have hmasUse : 0 < fit.mas.getD 5.5 := by
    rcases hc : fit.mas with _ | v
    · norm_num [Option.getD]
    · simpa using hmas v hc
  have ht1500 : 0 < 1500 / (0.92 * fit.mas.getD 5.5) :=
    div_pos (by norm_num) (mul_pos (by norm_num) hmasUse)
  simp only [workoutTimeForDistance]
  split_ifs with h8
  · exact Real.exp_pos _
  · exact mul_pos (div_pos ht1500 (Real.rpow_pos_of_pos (by norm_num) _))
      (Real.rpow_pos_of_pos hm _)

/-- C5: for every positive PR time, positive PR distance, positive target
distance, any athlete-type key (known or unknown) and any workout list with
nonnegative rep distances and rest seconds (rep times and dates arbitrary,
including unparseable), `blendPredictions` returns positive base, workout and
blended times (finiteness is inherent to the `ℝ` model): no input is fatal,
because undefined `mas`/`threshold`/`asr` proxies are replaced by the
guard-rail defaults `5.5`, `4.2` and `mas` inside `workoutTimeForDistance`. -/
theorem blendPredictions_safe (now prTime prDist meters : ℝ) (typeKey : String)
    (workouts : List Workout) (h1 : 0 < prTime) (h2 : 0 < prDist) (h3 : 0 < meters)
    (h4 : ∀ w ∈ workouts, 0 ≤ w.repDistanceM ∧ 0 ≤ w.restSeconds) :
    0 < (blendPredictions now prTime prDist meters typeKey workouts).base
    ∧ 0 < (blendPredictions now prTime prDist meters typeKey workouts).wkt
    ∧ 0 < (blendPredictions now prTime prDist meters typeKey workouts).tBlend := by
  obtain ⟨hmas, htt, hasr⟩ := aggregateFitness_pos now workouts h4
  refine ⟨?_, ?_, Real.exp_pos _⟩
  · show 0 < riegelPredict prTime prDist meters ((riegelByType typeKey).getD 1.08)
    exact mul_pos h1 (Real.rpow_pos_of_pos (div_pos h3 h2) _)
  · show 0 < workoutTimeForDistance meters (aggregateFitness now workouts) typeKey
    exact workoutTimeForDistance_pos meters _ typeKey h3 hmas

theorem blendPredictions_safe_witness :
    0 < (blendPredictions 0 240 1500 400 "marathon" [⟨8, 400, "abc", 60, none⟩]).base
    ∧ 0 < (blendPredictions 0 240 1500 400 "marathon" [⟨8, 400, "abc", 60, none⟩]).wkt
    ∧ 0 < (blendPredictions 0 240 1500 400 "marathon" [⟨8, 400, "abc", 60, none⟩]).tBlend :=
  blendPredictions_safe 0 240 1500 400 "marathon" [⟨8, 400, "abc", 60, none⟩]
    (by norm_num) (by norm_num) (by norm_num)
    (by intro w hw
        simp only [List.mem_singleton] at hw
        subst hw
        exact ⟨by norm_num, by norm_num⟩)

end RacePredictor
